import Mathlib

set_option autoImplicit false

/-!
Shallow embedding of the http-queue-manager core (retry strategies, circuit
breaker, token-bucket rate limiter, backpressure controller, queue manager
operations and worker lifecycle), together with theorems settling the frozen
claims about its specification.

Conventions of the embedding:
- JavaScript numbers used for delays, tokens and timestamps are modelled as
  rationals; counters are naturals.
- JavaScript truthiness is modelled explicitly where the source relies on it
  (a status code of 0, an empty error-code string, an empty host string and a
  per-host concurrency of 0 are all falsy).
- Fallible functions return Except; injected parameters stand for the ambient
  effects (generated UUID, random jitter factor, current time).
-/

namespace HQM

/-! ### String helpers (JS `String.prototype.includes`) -/

/-- Decides whether the second list is a prefix of the first. -/
def charsStartWith : List Char → List Char → Bool
  | _, [] => true
  | [], _ :: _ => false
  | a :: hay, b :: needle => a == b && charsStartWith hay needle

/-- Decides whether `needle` occurs contiguously inside `hay`. -/
def charsContain (hay needle : List Char) : Bool :=
  match hay with
  | [] => needle.isEmpty
  | _ :: t => charsStartWith hay needle || charsContain t needle

/-- JS `s.includes(sub)`. -/
def strIncludes (s sub : String) : Bool :=
  charsContain s.data sub.data

/-! ### JS error values (as consumed by `shouldRetry`) -/

/-- The fields of a JS `Error` that `shouldRetry` inspects: the Node errno
`code` property (absent on plain errors), `name` and `message`. -/
structure JsError where
  code : Option String
  name : String
  message : String

/-! ### Retry configuration (src/retry/strategies.ts, src/types/index.ts) -/

inductive RetryStrategy
  | exponential
  | linear
  | fixed
  | custom
deriving DecidableEq

/-- The `retryOn` field of `RetryConfig`: absent (default status set), a list
of status codes, or a predicate. -/
inductive RetryOn
  | defaultCodes
  | list (codes : List Nat)
  | pred (f : Nat → Option JsError → Bool)

structure RetryConfig where
  strategy : RetryStrategy
  maxRetries : Nat
  baseDelay : ℚ
  maxDelay : ℚ
  jitter : Bool
  retryOn : RetryOn

/-- The transport-failure codes `shouldRetry` treats as retryable. -/
def retryableErrors : List String :=
  ["ECONNRESET", "ECONNREFUSED", "ETIMEDOUT", "ENOTFOUND",
   "EAI_AGAIN", "EPIPE", "EHOSTUNREACH", "ENETUNREACH"]

/-- The default retryable status codes. -/
def defaultRetryableCodes : List Nat := [408, 429, 500, 502, 503, 504]

/-- JS truthiness of the `statusCode` argument: `!statusCode` holds for
`undefined` and for `0`. -/
def statusFalsy (statusCode : Option Nat) : Bool :=
  statusCode.getD 0 == 0

/-- The network-error block of `shouldRetry`: errno code in the retryable
list (a present, non-empty string), or a timeout classification
(name `AbortError` or a message containing `timeout`). -/
def transportRetryable (e : JsError) : Bool :=
  (match e.code with
   | some c => !(c == "") && retryableErrors.contains c
   | none => false)
  || (e.name == "AbortError" || strIncludes e.message "timeout")

/-- The retry decision taken from `config.retryOn` for a (truthy) status code. -/
def retryOnDecision (ro : RetryOn) (statusCode : Nat) (error : Option JsError) : Bool :=
  match ro with
  | .pred f => f statusCode error
  | .list l => l.contains statusCode
  | .defaultCodes => defaultRetryableCodes.contains statusCode

/-- src/retry/strategies.ts `shouldRetry`. -/
def shouldRetry (statusCode : Option Nat) (error : Option JsError)
    (attempt : Nat) (config : RetryConfig) : Bool :=
  if config.maxRetries ≤ attempt then false
  else
    let networkRetry :=
      match error with
      | some e => statusFalsy statusCode && transportRetryable e
      | none => false
    if networkRetry then true
    else if statusFalsy statusCode then false
    else
      match statusCode with
      | some c => retryOnDecision config.retryOn c error
      | none => false

/-! ### Retry delays (src/retry/strategies.ts `calculateRetryDelay`) -/

/-- JS `Math.round` (round half toward positive infinity). -/
def jsRound (q : ℚ) : ℤ := ⌊q + 1 / 2⌋

/-- src/retry/strategies.ts `applyJitter`, with the value of `Math.random()`
injected as `rand`. -/
def applyJitter (delay : ℚ) (rand : ℚ) : ℚ :=
  max 0 ((jsRound (delay + (rand * 2 - 1) * (delay * (1 / 4))) : ℤ) : ℚ)

/-- src/retry/strategies.ts `exponentialBackoff`; the integer exponent keeps
JS `Math.pow` semantics for every attempt number. -/
def exponentialBackoff (attempt : Nat) (baseDelay maxDelay : ℚ) : ℚ :=
  min (baseDelay * (2 : ℚ) ^ ((attempt : ℤ) - 1)) maxDelay

/-- src/retry/strategies.ts `linearBackoff`. -/
def linearBackoff (attempt : Nat) (baseDelay maxDelay : ℚ) : ℚ :=
  min (baseDelay * (attempt : ℚ)) maxDelay

/-- src/retry/strategies.ts `calculateRetryDelay`, with the custom strategy
function and the jitter random factor injected. -/
def calculateRetryDelay (attempt : Nat) (config : RetryConfig)
    (customFn : Option (Nat → ℚ → ℚ → ℚ)) (rand : ℚ) : Except String ℚ :=
  let d0 : Except String ℚ :=
    match config.strategy with
    | .exponential => .ok (exponentialBackoff attempt config.baseDelay config.maxDelay)
    | .linear => .ok (linearBackoff attempt config.baseDelay config.maxDelay)
    | .fixed => .ok config.baseDelay
    | .custom =>
      match customFn with
      | none => .error "Custom retry strategy requires a custom function"
      | some f => .ok (f attempt config.baseDelay config.maxDelay)
  match d0 with
  | .error e => .error e
  | .ok d =>
    let d := if config.jitter then applyJitter d rand else d
    .ok (min d config.maxDelay)

/-! ### Request statuses and the worker lifecycle of one request
(src/core/worker.ts `processRequest`, `handleSuccess`, `handleFailure`) -/

inductive RequestStatus
  | pending
  | scheduled
  | processing
  | completed
  | failed
  | dead
  | cancelled
deriving DecidableEq

/-- Terminal statuses are sinks for the worker. -/
def isTerminalStatus : RequestStatus → Bool
  | .completed | .dead | .cancelled => true
  | _ => false

/-- The durable fields of one request the worker drives: its status and the
attempts counter (timing and payload fields are irrelevant to the attempt
accounting and elided). -/
structure LifeState where
  status : RequestStatus
  attempts : Nat
deriving DecidableEq

/-- The outcome of executing one HTTP attempt: a response with a status code,
or a transport error. -/
inductive Outcome
  | response (status : Nat)
  | transportError (e : JsError)

/-- The synthetic error the worker builds for a non-2xx response. -/
def httpError (status : Nat) : JsError :=
  { code := none, name := "Error", message := "HTTP " ++ toString status }

/-- src/core/worker.ts `handleFailure`: the resulting durable status, decided
by `shouldRetry` with the effective `maxRetries` spliced into the config. -/
def handleFailure (config : RetryConfig) (maxRetries : Nat)
    (statusCode : Option Nat) (error : JsError) (currentAttempt : Nat) : RequestStatus :=
  if shouldRetry statusCode (some error) currentAttempt { config with maxRetries := maxRetries }
  then .pending
  else .dead

/-- One pass of `processRequest` over the durable row: the attempt counter is
set to `attempts + 1` on the transition to processing, then the outcome is
classified (2xx succeeds, otherwise `handleFailure` with the synthetic HTTP
error, and transport errors go to `handleFailure` with no status code).
Terminal rows are left untouched. -/
def workerStep (config : RetryConfig) (maxRetries : Nat)
    (st : LifeState) (o : Outcome) : LifeState :=
  if isTerminalStatus st.status then st
  else
    let a := st.attempts + 1
    match o with
    | .response s =>
      if 200 ≤ s ∧ s < 300 then { status := .completed, attempts := a }
      else { status := handleFailure config maxRetries (some s) (httpError s) a, attempts := a }
    | .transportError e =>
      { status := handleFailure config maxRetries none e a, attempts := a }

/-- A freshly enqueued request: status pending with zero attempts. -/
def initialLifeState : LifeState := { status := .pending, attempts := 0 }

/-- The worker driving one request through a sequence of attempt outcomes. -/
def runWorker (config : RetryConfig) (maxRetries : Nat)
    (outcomes : List Outcome) : LifeState :=
  outcomes.foldl (workerStep config maxRetries) initialLifeState

/-! ### Circuit breaker
(src/backpressure/circuit-breaker.ts, src/storage/redis.ts) -/

inductive CircuitState
  | closed
  | openCircuit
  | halfOpen
deriving DecidableEq

structure CircuitBreakerConfig where
  failureThreshold : Nat
  successThreshold : Nat
  resetTimeout : ℚ
  halfOpenMaxRequests : Nat

/-- The per-host circuit-breaker hash stored in the Index Store
(`cb:{host}`): state, counters, `last_failure`, `state_changed_at`. -/
structure CircuitRow where
  state : CircuitState
  failures : Nat
  successes : Nat
  lastFailure : Option ℚ
  stateChangedAt : Option ℚ
deriving DecidableEq

/-- The row `getCircuitBreakerState` returns for a missing hash. -/
def emptyCircuitRow : CircuitRow :=
  { state := .closed, failures := 0, successes := 0, lastFailure := none, stateChangedAt := none }

/-- The update record accepted by `RedisStore.updateCircuitBreaker`. -/
structure CircuitUpdate where
  state : Option CircuitState := none
  incrementFailures : Bool := false
  incrementSuccesses : Bool := false
  resetCounters : Bool := false

/-- src/storage/redis.ts `updateCircuitBreaker`: the pipeline applies the
counter reset, then the failure increment (also recording `last_failure`),
then the success increment, then the state change (recording
`state_changed_at`). -/
def updateCircuitBreaker (row : CircuitRow) (u : CircuitUpdate) (now : ℚ) : CircuitRow :=
  let r := if u.resetCounters then { row with failures := 0, successes := 0 } else row
  let r := if u.incrementFailures
           then { r with failures := r.failures + 1, lastFailure := some now } else r
  let r := if u.incrementSuccesses then { r with successes := r.successes + 1 } else r
  match u.state with
  | some s => { r with state := s, stateChangedAt := some now }
  | none => r

/-- src/backpressure/circuit-breaker.ts `CircuitBreaker.recordFailure`. -/
def recordFailure (cfg : CircuitBreakerConfig) (row : CircuitRow) (now : ℚ) : CircuitRow :=
  match row.state with
  | .closed =>
    let r1 := updateCircuitBreaker row { incrementFailures := true } now
    if cfg.failureThreshold ≤ row.failures + 1 then
      updateCircuitBreaker r1 { state := some .openCircuit, resetCounters := true } now
    else r1
  | .halfOpen =>
    updateCircuitBreaker row { state := some .openCircuit, incrementFailures := true } now
  | .openCircuit => row

/-- src/backpressure/circuit-breaker.ts `CircuitBreaker.isAllowed`: the
admission decision, the observed state, and the (possibly updated) stored row
after the open-to-half-open transition. -/
def isAllowedCircuit (cfg : CircuitBreakerConfig) (row : CircuitRow) (now : ℚ) :
    Bool × CircuitState × CircuitRow :=
  match row.state with
  | .closed => (true, .closed, row)
  | .openCircuit =>
    match row.stateChangedAt with
    | some t =>
      if cfg.resetTimeout ≤ now - t then
        (true, .halfOpen,
         updateCircuitBreaker row { state := some .halfOpen, resetCounters := true } now)
      else (false, .openCircuit, row)
    | none => (false, .openCircuit, row)
  | .halfOpen =>
    if row.successes + row.failures < cfg.halfOpenMaxRequests then (true, .halfOpen, row)
    else (false, .halfOpen, row)

/-- The `timeUntilReset` field of `CircuitBreaker.getState`: present only in
the open state with a recorded transition time. -/
def getStateTimeUntilReset (cfg : CircuitBreakerConfig) (row : CircuitRow) (now : ℚ) : Option ℚ :=
  if row.state = .openCircuit then
    row.stateChangedAt.map (fun t => max 0 (cfg.resetTimeout - (now - t)))
  else none

/-! ### Token-bucket rate limiter
(src/storage/redis.ts `checkRateLimit`, src/backpressure/rate-limiter.ts) -/

/-- The `ratelimit:{scope}` hash: token count and last refill time. -/
structure TokenBucket where
  tokens : ℚ
  lastUpdate : ℚ
deriving DecidableEq

/-- The observable result of the atomic rate-limit script plus its TS
wrapper: the admission flag, the `retryAfter` hint, the stored bucket after
the call, and the TTL set on a write. -/
structure RateLimitResult where
  allowed : Bool
  retryAfter : Option ℚ
  bucket : Option TokenBucket
  ttlSet : Option Nat
deriving DecidableEq

/-- The conversion Redis applies to a Lua number returned by a script: the
reply is an integer obtained by removing the decimal part (truncation toward
zero). -/
def luaReplyInt (q : ℚ) : ℤ :=
  if 0 ≤ q then ⌊q⌋ else ⌈q⌉

/-- src/storage/redis.ts `checkRateLimit`: the Lua token-bucket script
(defaulting a fresh key to a full bucket, refilling by elapsed time,
consuming one token when at least one is available). The script's
`return {0, wait_time}` passes through Redis's Lua-number-to-integer reply
conversion, so the TS wrapper receives the truncated wait time; its
`Math.ceil` then acts on that integer, and its `result[1] > 0` guard drops
the hint entirely when the truncated wait is 0. -/
def checkRateLimit (bucket : Option TokenBucket) (now rate burst : ℚ) : RateLimitResult :=
  let tokens0 := (bucket.map TokenBucket.tokens).getD burst
  let lastUpdate := (bucket.map TokenBucket.lastUpdate).getD now
  let elapsed := (now - lastUpdate) / 1000
  let tokens := min burst (tokens0 + elapsed * rate)
  if 1 ≤ tokens then
    { allowed := true, retryAfter := none,
      bucket := some { tokens := tokens - 1, lastUpdate := now }, ttlSet := some 60 }
  else
    let waitTime := (1 - tokens) / rate * 1000
    let reply := luaReplyInt waitTime
    { allowed := false,
      retryAfter := if 0 < reply then some ((⌈((reply : ℤ) : ℚ)⌉ : ℤ) : ℚ) else none,
      bucket := bucket, ttlSet := none }

/-- The atomic rate-limit check as the amended claim words it: refill
`tokens` to `min(burst, tokens + (now − lastUpdate)·rate/1000)` (defaulting a
fresh key to `tokens = burst, lastUpdate = now`); when the refilled tokens
reach 1 consume one, persist `(tokens, now)` with a 60-second TTL and allow;
otherwise leave the bucket unchanged and deny, with
`retryAfter = ⌊(1 − tokens)/rate · 1000⌋` (the decimal part removed by the
Redis integer reply) when that wait is at least 1 ms and no retryAfter at
all when it is below 1 ms. -/
def rateLimitSpecAmended (bucket : Option TokenBucket) (now rate burst : ℚ) : RateLimitResult :=
  let tokens0 := (bucket.map TokenBucket.tokens).getD burst
  let lastUpdate := (bucket.map TokenBucket.lastUpdate).getD now
  let tokens := min burst (tokens0 + (now - lastUpdate) * rate / 1000)
  if 1 ≤ tokens then
    { allowed := true, retryAfter := none,
      bucket := some { tokens := tokens - 1, lastUpdate := now }, ttlSet := some 60 }
  else
    let waitMs := (1 - tokens) / rate * 1000
    { allowed := false,
      retryAfter := if 1 ≤ waitMs then some ((⌊waitMs⌋ : ℤ) : ℚ) else none,
      bucket := bucket, ttlSet := none }

/-- The normalized rate-limiter configuration (defaults already applied in
the `RateLimiter` constructor). -/
structure RateLimitConfig where
  requestsPerSecond : ℚ
  requestsPerMinute : ℚ
  burstSize : ℚ

/-- src/backpressure/rate-limiter.ts `RateLimiter.acquire`: the global scope
is checked first; when a (truthy, i.e. non-empty) host is given, the per-host
scope follows with rate `⌈rps/10⌉` and burst `⌈burst/5⌉`. Returns the
admission flag, the `retryAfter` of the denying scope, and both buckets after
the call. -/
def rateLimiterAcquire (cfg : RateLimitConfig)
    (globalBucket hostBucket : Option TokenBucket) (now : ℚ) (host : Option String) :
    Bool × Option ℚ × Option TokenBucket × Option TokenBucket :=
  let globalResult := checkRateLimit globalBucket now cfg.requestsPerSecond cfg.burstSize
  if !globalResult.allowed then
    (false, globalResult.retryAfter, globalResult.bucket, hostBucket)
  else if (host.getD "") ≠ "" then
    let hostResult := checkRateLimit hostBucket now
      ((⌈cfg.requestsPerSecond / 10⌉ : ℤ) : ℚ) ((⌈cfg.burstSize / 5⌉ : ℤ) : ℚ)
    if !hostResult.allowed then
      (false, hostResult.retryAfter, globalResult.bucket, hostResult.bucket)
    else (true, none, globalResult.bucket, hostResult.bucket)
  else (true, none, globalResult.bucket, hostBucket)

/-! ### Backpressure controller
(src/backpressure/controller.ts `BackpressureController.canProceed`) -/

structure BackpressureConfig where
  maxConcurrency : Nat
  perHostConcurrency : Option Nat

inductive DenyReason
  | concurrency
  | rateLimit
  | circuitOpen
deriving DecidableEq

/-- The result of `canProceed`. -/
structure AdmissionDecision where
  allowed : Bool
  reason : Option DenyReason
  retryAfter : Option ℚ
deriving DecidableEq

/-- The per-host concurrency guard of `canProceed`: active only when
`perHostConcurrency` is JS-truthy (present and non-zero). -/
def perHostDeny (bp : BackpressureConfig) (activeRequests : String → Option Nat)
    (host : String) : Bool :=
  match bp.perHostConcurrency with
  | some p => decide (p ≠ 0 ∧ p ≤ (activeRequests host).getD 0)
  | none => false

/-- src/backpressure/controller.ts `canProceed`: global concurrency, per-host
concurrency, circuit breaker (reading `timeUntilReset` on denial), then the
rate limiter. Returns the decision together with the circuit row and the two
rate-limit buckets after the call. -/
def canProceed (bp : BackpressureConfig) (cb : CircuitBreakerConfig) (rl : RateLimitConfig)
    (totalActive : Nat) (activeRequests : String → Option Nat)
    (row : CircuitRow) (globalBucket hostBucket : Option TokenBucket)
    (now : ℚ) (host : String) :
    AdmissionDecision × CircuitRow × Option TokenBucket × Option TokenBucket :=
  if bp.maxConcurrency ≤ totalActive then
    ({ allowed := false, reason := some .concurrency, retryAfter := none },
     row, globalBucket, hostBucket)
  else if perHostDeny bp activeRequests host then
    ({ allowed := false, reason := some .concurrency, retryAfter := none },
     row, globalBucket, hostBucket)
  else
    let cbResult := isAllowedCircuit cb row now
    if !cbResult.1 then
      ({ allowed := false, reason := some .circuitOpen,
         retryAfter := getStateTimeUntilReset cb cbResult.2.2 now },
       cbResult.2.2, globalBucket, hostBucket)
    else
      let rlResult := rateLimiterAcquire rl globalBucket hostBucket now (some host)
      if !rlResult.1 then
        ({ allowed := false, reason := some .rateLimit, retryAfter := rlResult.2.1 },
         cbResult.2.2, rlResult.2.2.1, rlResult.2.2.2)
      else
        ({ allowed := true, reason := none, retryAfter := none },
         cbResult.2.2, rlResult.2.2.1, rlResult.2.2.2)

/-! ### Queue manager operations over the two stores
(src/core/queue-manager.ts, src/storage/redis.ts, src/storage/postgres.ts) -/

/-- The durable `requests` row, restricted to the fields the modelled
operations read or write (payload and timing fields irrelevant to the claims
are elided). -/
structure StoreRow where
  status : RequestStatus
  attempts : Nat
  error : Option String
  nextRetryAt : Option ℚ
  priority : Nat
deriving DecidableEq

/-- The combined system state: the Index Store membership sets, the durable
rows keyed by id, and the log of `new-request` notifications published
(ordering scores of the sorted sets are elided; only membership matters to
the claims). -/
structure SystemState where
  queue : Finset String
  scheduled : Finset String
  processing : Finset String
  deadSet : Finset String
  durable : String → Option StoreRow
  published : List String

/-- src/storage/redis.ts `cancel`: remove the id from the priority queue and
the scheduled set; report whether either removal removed something. -/
def redisCancel (st : SystemState) (id : String) : Bool × SystemState :=
  (decide (id ∈ st.queue ∨ id ∈ st.scheduled),
   { st with queue := st.queue.erase id, scheduled := st.scheduled.erase id })

/-- src/storage/postgres.ts `updateRequestStatus` with no additional patch:
set the status of the row with the given id, when it exists. -/
def pgUpdateStatus (st : SystemState) (id : String) (newStatus : RequestStatus) : SystemState :=
  { st with
    durable := fun x =>
      if x = id then (st.durable x).map (fun r => { r with status := newStatus })
      else st.durable x }

/-- src/core/queue-manager.ts `cancel`: Index-Store cancel first; on any
removal, durable transition to cancelled; returns whether anything was
removed. -/
def qmCancel (st : SystemState) (id : String) : Bool × SystemState :=
  let c := redisCancel st id
  if c.1 then (true, pgUpdateStatus c.2 id .cancelled) else (false, c.2)

/-- src/storage/postgres.ts `retryDeadRequest`: reset the row to pending with
zero attempts and cleared error fields, guarded by `status = 'dead'`. -/
def pgRetryDeadRequest (st : SystemState) (id : String) : SystemState :=
  { st with
    durable := fun x =>
      if x = id then
        (st.durable x).map (fun r =>
          if r.status = .dead then
            { r with status := .pending, attempts := 0, error := none, nextRetryAt := none }
          else r)
      else st.durable x }

/-- src/storage/redis.ts `enqueue`: store the snapshot, add the id to the
priority queue, publish a `new-request` notification. -/
def redisEnqueue (st : SystemState) (id : String) : SystemState :=
  { st with queue := insert id st.queue, published := st.published ++ [id] }

/-- src/core/queue-manager.ts `retryDeadRequest`: durable reset (guarded on
dead), then re-read the row and, when present, re-enqueue it into the Index
Store. -/
def qmRetryDeadRequest (st : SystemState) (id : String) : SystemState :=
  let st1 := pgRetryDeadRequest st id
  match st1.durable id with
  | some _ => redisEnqueue st1 id
  | none => st1

/-! ### Input validation and request creation
(src/types/index.ts `QueueRequestSchema`, src/core/request.ts `createRequest`) -/

/-- The caller-supplied enqueue input, restricted to the validated fields
(the opaque passthrough fields `headers`, `body` and `metadata` are elided). -/
structure QueueRequestInput where
  id : Option String
  url : String
  method : String
  priority : Option Int
  maxRetries : Option Int
  timeout : Option Int
  scheduledFor : Option ℚ

/-- The schema output: like the input but with the priority default applied. -/
structure ParsedRequest where
  id : Option String
  url : String
  method : String
  priority : Int
  maxRetries : Option Int
  timeout : Option Int
  scheduledFor : Option ℚ
deriving DecidableEq

/-- The normalized request produced by `createRequest`. -/
structure NormalizedRequest where
  id : String
  url : String
  method : String
  priority : Int
  maxRetries : Option Int
  timeout : Option Int
  scheduledFor : Option ℚ
  createdAt : ℚ
deriving DecidableEq

def isHexDigit (c : Char) : Bool :=
  c.isDigit || ('a' ≤ c && c ≤ 'f') || ('A' ≤ c && c ≤ 'F')

/-- Splits a character list on a separator character. -/
def splitChars (sep : Char) : List Char → List (List Char)
  | [] => [[]]
  | c :: t =>
    let r := splitChars sep t
    if c = sep then [] :: r
    else
      match r with
      | h :: t2 => (c :: h) :: t2
      | [] => [[c]]

/-- Modelled from the spec: the UUID format accepted by zod's
`z.string().uuid()` (the zod library is not part of this repository's
sources) — five hyphen-separated hexadecimal groups of lengths
8, 4, 4, 4 and 12. -/
def isUuid (s : String) : Bool :=
  match splitChars '-' s.data with
  | [a, b, c, d, e] =>
    a.length == 8 && b.length == 4 && c.length == 4 && d.length == 4 && e.length == 12
    && (a ++ b ++ c ++ d ++ e).all isHexDigit
  | _ => false

/-- Splits a character list at the first occurrence of the scheme separator
`://`, returning the parts before and after it. -/
def findSchemeSplit : List Char → Option (List Char × List Char)
  | [] => none
  | c :: t =>
    if charsStartWith (c :: t) [':', '/', '/'] then some ([], t.drop 2)
    else
      match findSchemeSplit t with
      | some p => some (c :: p.1, p.2)
      | none => none

/-- Modelled from the spec: the WHATWG URL validity behind zod's
`z.string().url()` (the URL parser is a platform library, not part of this
repository's sources); the spec requires an absolute URL with a scheme and a
host, and a second scheme separator is malformed. -/
def urlOk (s : String) : Bool :=
  match findSchemeSplit s.data with
  | some p => !p.1.isEmpty && !p.2.isEmpty && !charsContain p.2 [':', '/', '/']
  | none => false

/-- The allowed HTTP methods of `HttpMethodSchema`. -/
def httpMethods : List String :=
  ["GET", "POST", "PUT", "PATCH", "DELETE", "HEAD", "OPTIONS"]

/-- src/types/index.ts `QueueRequestSchema.parse`: optional UUID id, valid
URL, method in the allowed set, integer priority in [0,100] defaulting to 50,
non-negative optional `maxRetries` and `timeout`. -/
def parseQueueRequest (input : QueueRequestInput) : Except String ParsedRequest :=
  if !(match input.id with | none => true | some s => isUuid s) then
    .error "Invalid uuid"
  else if !urlOk input.url then
    .error "Invalid url"
  else if !httpMethods.contains input.method then
    .error "Invalid enum value"
  else
    let priority := input.priority.getD 50
    if !(decide (0 ≤ priority ∧ priority ≤ 100)) then
      .error "Invalid priority"
    else if !(match input.maxRetries with | none => true | some m => decide (0 ≤ m)) then
      .error "Invalid maxRetries"
    else if !(match input.timeout with | none => true | some t => decide (0 ≤ t)) then
      .error "Invalid timeout"
    else
      .ok { id := input.id, url := input.url, method := input.method,
            priority := priority, maxRetries := input.maxRetries,
            timeout := input.timeout, scheduledFor := input.scheduledFor }

/-- src/core/request.ts `createRequest`: validate through the schema, then
fill the id (generated only when absent) and stamp `createdAt`; the generated
UUID and the current time are injected. -/
def createRequest (genId : String) (now : ℚ) (input : QueueRequestInput) :
    Except String NormalizedRequest :=
  match parseQueueRequest input with
  | .error e => .error e
  | .ok v =>
    .ok { id := v.id.getD genId, url := v.url, method := v.method,
          priority := v.priority, maxRetries := v.maxRetries,
          timeout := v.timeout, scheduledFor := v.scheduledFor, createdAt := now }

/-! ### Durable statistics (src/storage/postgres.ts `getStats`) -/

/-- The statistics record returned by `getStats` (the mean attempt duration
is computed from the attempts table and is elided here). -/
structure QueueStats where
  pending : Nat
  processing : Nat
  completed : Nat
  failed : Nat
  dead : Nat
  successRate : ℚ
deriving DecidableEq

/-- src/storage/postgres.ts `getStats` over the multiset of durable request
statuses: per-status counts (pending merges pending and scheduled) and
`successRate = completed / (completed + failed + dead)` guarded against an
empty denominator. -/
def getStats (rows : List RequestStatus) : QueueStats :=
  let completed := rows.count .completed
  let failed := rows.count .failed
  let deadCount := rows.count .dead
  let total := completed + failed + deadCount
  { pending := rows.count .pending + rows.count .scheduled,
    processing := rows.count .processing,
    completed := completed, failed := failed, dead := deadCount,
    successRate := if 0 < total then (completed : ℚ) / (total : ℚ) else 0 }

/-! ### Concrete instances used by the witnesses and counterexamples -/

/-- The default retry configuration of src/config.ts with jitter disabled
(the unit tests' base configuration). -/
def cfgDefaultT : RetryConfig :=
  { strategy := .exponential, maxRetries := 3, baseDelay := 1000, maxDelay := 30000,
    jitter := false, retryOn := .defaultCodes }

/-- A fixed-strategy configuration whose base delay exceeds its maximum delay. -/
def fixedCapCfg : RetryConfig :=
  { strategy := .fixed, maxRetries := 3, baseDelay := 5000, maxDelay := 1000,
    jitter := false, retryOn := .defaultCodes }

/-- A connection-refused transport error. -/
def errConnRefusedT : JsError :=
  { code := some "ECONNREFUSED", name := "Error", message := "Connection refused" }

/-- The default circuit-breaker configuration of src/config.ts. -/
def cbCfgT : CircuitBreakerConfig :=
  { failureThreshold := 5, successThreshold := 3, resetTimeout := 30000,
    halfOpenMaxRequests := 3 }

/-- A half-open circuit row holding one recorded success. -/
def rowHalfOpenT : CircuitRow :=
  { state := .halfOpen, failures := 0, successes := 1,
    lastFailure := none, stateChangedAt := some 0 }

/-- A backpressure configuration with global concurrency 2 and no per-host
limit. -/
def bpT : BackpressureConfig := { maxConcurrency := 2, perHostConcurrency := none }

/-- The default rate-limiter configuration of src/config.ts. -/
def rlCfgT : RateLimitConfig :=
  { requestsPerSecond := 100, requestsPerMinute := 6000, burstSize := 150 }

/-- A pending durable row. -/
def rowPendT : StoreRow :=
  { status := .pending, attempts := 0, error := none, nextRetryAt := none, priority := 50 }

/-- A completed durable row with one attempt. -/
def rowCompletedT : StoreRow :=
  { status := .completed, attempts := 1, error := none, nextRetryAt := none, priority := 50 }

/-- A system state with request a queued, request b processing, and a durable
row for a. -/
def sysCancelT : SystemState :=
  { queue := {"a"}, scheduled := ∅, processing := {"b"}, deadSet := ∅,
    durable := fun x => if x = "a" then some rowPendT else none, published := [] }

/-- A system state holding only the completed durable row of request c. -/
def sysRetryT : SystemState :=
  { queue := ∅, scheduled := ∅, processing := ∅, deadSet := ∅,
    durable := fun x => if x = "c" then some rowCompletedT else none, published := [] }

/-- An enqueue input with no caller-supplied id. -/
def inpNoIdT : QueueRequestInput :=
  { id := none, url := "https://example.com/a", method := "GET",
    priority := none, maxRetries := none, timeout := none, scheduledFor := none }

/-- An enqueue input with a malformed caller-supplied id. -/
def inpBadIdT : QueueRequestInput :=
  { id := some "not-a-uuid", url := "https://example.com/a", method := "GET",
    priority := none, maxRetries := none, timeout := none, scheduledFor := none }

/-- A well-formed generated UUID. -/
def genIdT : String := "11111111-1111-1111-1111-111111111111"

/-- The normalized request produced from `inpNoIdT` with `genIdT` and time 0. -/
def outNoIdT : NormalizedRequest :=
  { id := genIdT, url := "https://example.com/a", method := "GET", priority := 50,
    maxRetries := none, timeout := none, scheduledFor := none, createdAt := 0 }

/-- A status multiset with one completed and one dead request. -/
def rowsT : List RequestStatus := [.completed, .dead]

/-! ## Theorems -/

/-- A positive retry decision is only ever taken below the retry limit. -/
theorem lt_of_shouldRetry (sc : Option Nat) (e : Option JsError) (a : Nat)
    (cfg : RetryConfig) (h : shouldRetry sc e a cfg = true) : a < cfg.maxRetries := by
  by_contra hc
  rw [Nat.not_lt] at hc
  simp only [shouldRetry, if_pos hc] at h
  exact Bool.false_ne_true h

/-- C2: shouldRetry returns false whenever attempt ≥ maxRetries; below the
limit, a missing status code together with a known transport failure or a
timeout classification retries; given a (nonzero, since 0 is JS-falsy)
status code the decision defers to retryOn: a predicate is consulted, a list
decides by membership, and the default decides by membership in
{408, 429, 500, 502, 503, 504}. -/
theorem shouldRetry_decision_table (sc : Option Nat) (e : Option JsError)
    (a : Nat) (cfg : RetryConfig) :
    (cfg.maxRetries ≤ a → shouldRetry sc e a cfg = false)
    ∧ (a < cfg.maxRetries → sc = none → ∀ err, e = some err →
        transportRetryable err = true → shouldRetry sc e a cfg = true)
    ∧ (a < cfg.maxRetries → ∀ c, sc = some c → c ≠ 0 →
        shouldRetry sc e a cfg = retryOnDecision cfg.retryOn c e) := by
  refine ⟨fun h => ?_, fun h hsc err herr htr => ?_, fun h c hsc hc => ?_⟩
  · simp [shouldRetry, if_pos h]
  · subst hsc
    subst herr
    simp [shouldRetry, Nat.not_le.mpr h, statusFalsy, htr]
  · subst hsc
    cases e with
    | none => simp [shouldRetry, Nat.not_le.mpr h, statusFalsy, hc]
    | some err => simp [shouldRetry, Nat.not_le.mpr h, statusFalsy, hc]

/-- C2 witness: concrete instances of the three branches under the default
configuration. -/
theorem shouldRetry_decision_table_w :
    shouldRetry (some 500) none 3 cfgDefaultT = false
    ∧ shouldRetry none (some errConnRefusedT) 1 cfgDefaultT = true
    ∧ shouldRetry (some 503) none 1 cfgDefaultT
        = retryOnDecision cfgDefaultT.retryOn 503 none :=
  ⟨(shouldRetry_decision_table (some 500) none 3 cfgDefaultT).1 (by decide),
   (shouldRetry_decision_table none (some errConnRefusedT) 1 cfgDefaultT).2.1
     (by decide) rfl errConnRefusedT rfl (by decide),
   (shouldRetry_decision_table (some 503) none 1 cfgDefaultT).2.2
     (by decide) 503 rfl (by decide)⟩

/-- C6 (amended): with jitter disabled and attempt ≥ 1, delayFor returns
min(baseDelay · 2^(attempt−1), maxDelay) for strategy exponential,
min(baseDelay · attempt, maxDelay) for strategy linear, and
min(baseDelay, maxDelay) for strategy fixed — the final cap by maxDelay
applies to the fixed strategy as well, so a fixed baseDelay above maxDelay is
clipped. -/
theorem calculateRetryDelay_noJitter (a : Nat) (cfg : RetryConfig)
    (fn : Option (Nat → ℚ → ℚ → ℚ)) (rand : ℚ)
    (hj : cfg.jitter = false) (ha : 1 ≤ a) :
    (cfg.strategy = .exponential →
      calculateRetryDelay a cfg fn rand
        = .ok (min (cfg.baseDelay * (2 : ℚ) ^ (a - 1)) cfg.maxDelay))
    ∧ (cfg.strategy = .linear →
      calculateRetryDelay a cfg fn rand
        = .ok (min (cfg.baseDelay * (a : ℚ)) cfg.maxDelay))
    ∧ (cfg.strategy = .fixed →
      calculateRetryDelay a cfg fn rand = .ok (min cfg.baseDelay cfg.maxDelay)) := by
  have hz : (2 : ℚ) ^ ((a : ℤ) - 1) = (2 : ℚ) ^ (a - 1) := by
    have h1 : ((a : ℤ) - 1) = ((a - 1 : ℕ) : ℤ) := by omega
    rw [h1, zpow_natCast]
  refine ⟨fun hs => ?_, fun hs => ?_, fun hs => ?_⟩
  · simp [calculateRetryDelay, hs, hj, exponentialBackoff, hz, min_assoc]
  · simp [calculateRetryDelay, hs, hj, linearBackoff, min_assoc]
  · simp [calculateRetryDelay, hs, hj]

/-- C6 witness: the exponential delay at attempt 3 under the default
configuration. -/
theorem calculateRetryDelay_noJitter_w :
    calculateRetryDelay 3 cfgDefaultT none 0
      = .ok (min (cfgDefaultT.baseDelay * (2 : ℚ) ^ (3 - 1)) cfgDefaultT.maxDelay) :=
  (calculateRetryDelay_noJitter 3 cfgDefaultT none 0 rfl (by decide)).1 rfl

/-- C6 counterexample: with strategy fixed, baseDelay 5000 and maxDelay 1000,
delayFor returns 1000 and not the claimed baseDelay of 5000. -/
theorem calculateRetryDelay_fixed_capped :
    calculateRetryDelay 1 fixedCapCfg none 0 = Except.ok (1000 : ℚ)
    ∧ fixedCapCfg.baseDelay = 5000
    ∧ (1000 : ℚ) ≠ 5000 :=
  ⟨by rfl, by rfl, by decide⟩

/-- The invariant tying the attempt counter to the status of a request's
lifecycle: a pending row is waiting either for its first attempt or for a
retry granted below the limit, and a terminal row performed at most
max(1, maxRetries) attempts. -/
def lifeInvariant (m : Nat) (st : LifeState) : Prop :=
  (st.status = .pending ∧ (st.attempts = 0 ∨ st.attempts < m))
  ∨ ((st.status = .completed ∨ st.status = .dead) ∧ st.attempts ≤ max 1 m)

/-- One worker pass preserves the lifecycle invariant. -/
theorem workerStep_preserves (cfg : RetryConfig) (m : Nat) (st : LifeState)
    (o : Outcome) (h : lifeInvariant m st) : lifeInvariant m (workerStep cfg m st o) := by
  rcases h with ⟨hp, hatt⟩ | ⟨hterm, hatt⟩
  · have hbound : st.attempts + 1 ≤ max 1 m := by
      rcases hatt with h0 | hlt
      · rw [h0]
        exact le_max_left 1 m
      · exact le_trans hlt (le_max_right 1 m)
    have hnt : isTerminalStatus st.status = false := by
      rw [hp]
      rfl
    cases o with
    | response s =>
      by_cases h2xx : 200 ≤ s ∧ s < 300
      · simp only [workerStep, hnt, Bool.false_eq_true, if_false, if_pos h2xx]
        exact Or.inr ⟨Or.inl rfl, hbound⟩
      · simp only [workerStep, hnt, Bool.false_eq_true, if_false, if_neg h2xx]
        by_cases hr : shouldRetry (some s) (some (httpError s)) (st.attempts + 1)
            { cfg with maxRetries := m } = true
        · left
          refine ⟨?_, Or.inr ?_⟩
          · simp [handleFailure, hr]
          · exact lt_of_shouldRetry _ _ _ _ hr
        · right
          refine ⟨Or.inr ?_, hbound⟩
          simp [handleFailure, Bool.of_not_eq_true hr]
    | transportError e =>
      simp only [workerStep, hnt, Bool.false_eq_true, if_false]
      by_cases hr : shouldRetry none (some e) (st.attempts + 1)
          { cfg with maxRetries := m } = true
      · left
        refine ⟨?_, Or.inr ?_⟩
        · simp [handleFailure, hr]
        · exact lt_of_shouldRetry _ _ _ _ hr
      · right
        refine ⟨Or.inr ?_, hbound⟩
        simp [handleFailure, Bool.of_not_eq_true hr]
  · have ht : isTerminalStatus st.status = true := by
      rcases hterm with hc | hd
      · rw [hc]
        rfl
      · rw [hd]
        rfl
    cases o with
    | response s =>
      simp only [workerStep, ht, if_true]
      exact Or.inr ⟨hterm, hatt⟩
    | transportError e =>
      simp only [workerStep, ht, if_true]
      exact Or.inr ⟨hterm, hatt⟩

/-- The lifecycle invariant holds along every run of the worker. -/
theorem runWorker_invariant (cfg : RetryConfig) (m : Nat) (outs : List Outcome) :
    lifeInvariant m (runWorker cfg m outs) := by
  rw [runWorker]
  have h0 : lifeInvariant m initialLifeState := Or.inl ⟨rfl, Or.inl rfl⟩
  generalize initialLifeState = st at h0 ⊢
  induction outs generalizing st with
  | nil => exact h0
  | cons o t ih => exact ih _ (workerStep_preserves cfg m st o h0)

/-- C1 (amended): for every request driven by the worker through
handleFailure/shouldRetry with effective maxRetries m, the attempts count
never exceeds max(1, m), hence never exceeds m + 1. A request can reach dead
with attempts strictly below m + 1: any attempt whose outcome shouldRetry
declines (a non-retryable status code, a non-retryable transport error, or an
attempt number at or above m) moves the request to dead at once, and retry
exhaustion produces dead at attempts = m rather than m + 1. -/
theorem runWorker_attempts_bound (cfg : RetryConfig) (m : Nat) (outs : List Outcome) :
    (runWorker cfg m outs).attempts ≤ max 1 m
    ∧ (runWorker cfg m outs).attempts ≤ m + 1 := by
  have h := runWorker_invariant cfg m outs
  have hb : (runWorker cfg m outs).attempts ≤ max 1 m := by
    rcases h with ⟨_, h0 | hlt⟩ | ⟨_, hle⟩
    · rw [h0]
      exact Nat.zero_le _
    · exact le_trans (Nat.le_of_lt hlt) (le_max_right 1 m)
    · exact hle
  exact ⟨hb, le_trans hb (max_le (Nat.le_add_left 1 m) (Nat.le_succ m))⟩

/-- C1 counterexample: with maxRetries 3, a single HTTP 400 outcome drives
the request to dead with a final attempts count of 1 < 3 + 1, refuting that a
final attempts count below maxRetries + 1 implies status completed or
cancelled (and that dead is reached only after exactly maxRetries + 1
attempts). -/
theorem runWorker_dead_early :
    runWorker cfgDefaultT 3 [Outcome.response 400]
      = { status := RequestStatus.dead, attempts := 1 }
    ∧ (1 : Nat) < 3 + 1
    ∧ RequestStatus.dead ≠ RequestStatus.completed
    ∧ RequestStatus.dead ≠ RequestStatus.cancelled := by decide

/-- C3 (amended): for every host whose circuit breaker is in state
half-open, recordFailure transitions the circuit to open and records
stateChangedAt, incrementing the failures counter (and recording
lastFailure) while leaving the successes counter unchanged — the counters
are not reset to 0. -/
theorem recordFailure_halfOpen (cfg : CircuitBreakerConfig) (row : CircuitRow)
    (now : ℚ) (h : row.state = .halfOpen) :
    recordFailure cfg row now
      = { state := .openCircuit, failures := row.failures + 1,
          successes := row.successes, lastFailure := some now,
          stateChangedAt := some now } := by
  obtain ⟨s, f, su, lf, sc⟩ := row
  simp only at h
  subst h
  simp [recordFailure, updateCircuitBreaker]

/-- C3 witness: a concrete half-open row driven through recordFailure. -/
theorem recordFailure_halfOpen_w :
    recordFailure cbCfgT rowHalfOpenT 7
      = { state := .openCircuit, failures := 1, successes := 1,
          lastFailure := some 7, stateChangedAt := some 7 } :=
  recordFailure_halfOpen cbCfgT rowHalfOpenT 7 rfl

/-- C3 counterexample: a half-open circuit with one recorded success; after
recordFailure the circuit is open but the failures counter is 1 and the
successes counter is still 1, so the counters are not reset to 0 as the
claim states. -/
theorem recordFailure_halfOpen_keeps_counters :
    rowHalfOpenT.state = CircuitState.halfOpen
    ∧ (recordFailure cbCfgT rowHalfOpenT 7).state = CircuitState.openCircuit
    ∧ (recordFailure cbCfgT rowHalfOpenT 7).successes = 1
    ∧ ¬((recordFailure cbCfgT rowHalfOpenT 7).failures = 0
        ∧ (recordFailure cbCfgT rowHalfOpenT 7).successes = 0) := by decide

/-- C4 (amended): for every bucket state and positive rate, the atomic
rate-limit check refills tokens ← min(burst, tokens + (now − lastUpdate)·
rate/1000) with a fresh key defaulting to a full bucket at now; with at least
one refilled token it consumes one, persists (tokens, now) under a 60-second
TTL and allows; otherwise it leaves the bucket unchanged and denies, with
retryAfter = ⌊(1 − tokens)/rate · 1000⌋ — the decimal part of the wait is
removed by the Redis integer reply before the wrapper's Math.ceil can act —
when that wait is at least 1 ms, and with no retryAfter at all when the wait
is below 1 ms. -/
theorem checkRateLimit_eq_amended (b : Option TokenBucket) (now rate burst : ℚ)
    (hr : 0 < rate) :
    checkRateLimit b now rate burst = rateLimitSpecAmended b now rate burst := by
  simp only [checkRateLimit, rateLimitSpecAmended]
  have hmul : (now - (b.map TokenBucket.lastUpdate).getD now) / 1000 * rate
      = (now - (b.map TokenBucket.lastUpdate).getD now) * rate / 1000 := by
    ring
  rw [hmul]
  set t := min burst ((b.map TokenBucket.tokens).getD burst
    + (now - (b.map TokenBucket.lastUpdate).getD now) * rate / 1000) with ht
  by_cases h1 : 1 ≤ t
  · simp only [if_pos h1]
  · have hlt : t < 1 := lt_of_not_ge h1
    have hw : 0 < (1 - t) / rate * 1000 := by
      have h2 : 0 < 1 - t := by linarith
      positivity
    have hfloor : luaReplyInt ((1 - t) / rate * 1000) = ⌊(1 - t) / rate * 1000⌋ :=
      if_pos (le_of_lt hw)
    have hcond : (0 < ⌊(1 - t) / rate * 1000⌋) ↔ (1 ≤ (1 - t) / rate * 1000) := by
      rw [Int.lt_iff_add_one_le, zero_add, Int.le_floor]
      norm_num
    simp only [if_neg h1, hfloor]
    by_cases h2 : 1 ≤ (1 - t) / rate * 1000
    · rw [if_pos (hcond.mpr h2), if_pos h2, Int.ceil_intCast]
    · rw [if_neg (fun hh => h2 (hcond.mp hh)), if_neg h2]

/-- C4 witness: a fresh global bucket with rate 1 and burst 5 at time 0. -/
theorem checkRateLimit_eq_amended_w :
    (0 : ℚ) < 1 ∧ checkRateLimit none 0 1 5 = rateLimitSpecAmended none 0 1 5 :=
  ⟨by decide, checkRateLimit_eq_amended none 0 1 5 (by decide)⟩

/-- C4 counterexample: with an empty bucket at time 0, rate 3 makes the wait
1000/3 ms and the program returns retryAfter 333 where the claimed ceiling is
334; rate 2000 makes the wait 1/2 ms and the program returns no retryAfter at
all where the claimed ceiling is 1 — the Redis integer reply truncates the
script's fractional wait before the wrapper's Math.ceil sees it. -/
theorem checkRateLimit_truncated_retryAfter :
    (checkRateLimit (some { tokens := 0, lastUpdate := 0 }) 0 3 5).allowed = false
    ∧ (checkRateLimit (some { tokens := 0, lastUpdate := 0 }) 0 3 5).retryAfter = some 333
    ∧ (⌈(1 - (0 : ℚ)) / 3 * 1000⌉ : ℤ) = 334
    ∧ (checkRateLimit (some { tokens := 0, lastUpdate := 0 }) 0 2000 5).allowed = false
    ∧ (checkRateLimit (some { tokens := 0, lastUpdate := 0 }) 0 2000 5).retryAfter = none
    ∧ (⌈(1 - (0 : ℚ)) / 2000 * 1000⌉ : ℤ) = 1 := by
  have ht3 : min (5 : ℚ) (0 + (0 - 0) / 1000 * 3) = 0 := by norm_num
  have ht2000 : min (5 : ℚ) (0 + (0 - 0) / 1000 * 2000) = 0 := by norm_num
  have hf3 : (⌊(1 - (0 : ℚ)) / 3 * 1000⌋ : ℤ) = 333 := by
    rw [Int.floor_eq_iff]
    norm_num
  have hf2000 : (⌊(1 - (0 : ℚ)) / 2000 * 1000⌋ : ℤ) = 0 := by
    rw [Int.floor_eq_iff]
    norm_num
  have hc3 : (⌈(1 - (0 : ℚ)) / 3 * 1000⌉ : ℤ) = 334 := by
    rw [Int.ceil_eq_iff]
    norm_num
  have hc2000 : (⌈(1 - (0 : ℚ)) / 2000 * 1000⌉ : ℤ) = 1 := by
    rw [Int.ceil_eq_iff]
    norm_num
  refine ⟨?_, ?_, hc3, ?_, ?_, hc2000⟩ <;>
    simp [checkRateLimit, luaReplyInt, ht3, ht2000, hf3, hf2000] <;>
    norm_num [hf3, hf2000]

/-- A circuit-breaker denial performs no write: the stored row is returned
unchanged. -/
theorem isAllowedCircuit_denied_row (cfg : CircuitBreakerConfig) (row : CircuitRow)
    (now : ℚ) (h : (isAllowedCircuit cfg row now).1 = false) :
    (isAllowedCircuit cfg row now).2.2 = row := by
  unfold isAllowedCircuit at h ⊢
  cases hs : row.state with
  | closed => simp [hs] at h
  | openCircuit =>
    cases hsc : row.stateChangedAt with
    | none => simp [hs, hsc]
    | some t =>
      simp only [hs, hsc] at h ⊢
      by_cases ht : cfg.resetTimeout ≤ now - t
      · simp [ht] at h
      · simp [ht]
  | halfOpen =>
    simp only [hs] at h ⊢
    by_cases hq : row.successes + row.failures < cfg.halfOpenMaxRequests
    · simp [hq] at h
    · simp [hq]

/-- C5: canProceed evaluates denials in a fixed order: (1) global
concurrency; (2) per-host concurrency when perHostConcurrency is set (to a
nonzero limit, since 0 is JS-falsy); (3) the circuit breaker, denying with
reason circuit-open and retryAfter equal to the breaker's timeUntilReset
while leaving every stored value unchanged; (4) the rate limiter, denying
with the limiter's retryAfter; (5) otherwise the request is admitted. -/
theorem canProceed_denial_order (bp : BackpressureConfig) (cb : CircuitBreakerConfig)
    (rl : RateLimitConfig) (total : Nat) (active : String → Option Nat)
    (row : CircuitRow) (gB hB : Option TokenBucket) (now : ℚ) (host : String) :
    (bp.maxConcurrency ≤ total →
      canProceed bp cb rl total active row gB hB now host
        = ({ allowed := false, reason := some .concurrency, retryAfter := none },
           row, gB, hB))
    ∧ (total < bp.maxConcurrency → ∀ p, bp.perHostConcurrency = some p → p ≠ 0 →
        p ≤ (active host).getD 0 →
        canProceed bp cb rl total active row gB hB now host
          = ({ allowed := false, reason := some .concurrency, retryAfter := none },
             row, gB, hB))
    ∧ (total < bp.maxConcurrency → perHostDeny bp active host = false →
        (isAllowedCircuit cb row now).1 = false →
        canProceed bp cb rl total active row gB hB now host
          = ({ allowed := false, reason := some .circuitOpen,
               retryAfter := getStateTimeUntilReset cb row now },
             row, gB, hB))
    ∧ (total < bp.maxConcurrency → perHostDeny bp active host = false →
        (isAllowedCircuit cb row now).1 = true →
        (rateLimiterAcquire rl gB hB now (some host)).1 = false →
        canProceed bp cb rl total active row gB hB now host
          = ({ allowed := false, reason := some .rateLimit,
               retryAfter := (rateLimiterAcquire rl gB hB now (some host)).2.1 },
             (isAllowedCircuit cb row now).2.2,
             (rateLimiterAcquire rl gB hB now (some host)).2.2.1,
             (rateLimiterAcquire rl gB hB now (some host)).2.2.2))
    ∧ (total < bp.maxConcurrency → perHostDeny bp active host = false →
        (isAllowedCircuit cb row now).1 = true →
        (rateLimiterAcquire rl gB hB now (some host)).1 = true →
        canProceed bp cb rl total active row gB hB now host
          = ({ allowed := true, reason := none, retryAfter := none },
             (isAllowedCircuit cb row now).2.2,
             (rateLimiterAcquire rl gB hB now (some host)).2.2.1,
             (rateLimiterAcquire rl gB hB now (some host)).2.2.2)) := by
  refine ⟨fun h1 => ?_, fun h1 p hp hpz hple => ?_,
    fun h1 h2 h3 => ?_, fun h1 h2 h3 h4 => ?_, fun h1 h2 h3 h4 => ?_⟩
  · simp [canProceed, if_pos h1]
  · have hd : perHostDeny bp active host = true := by
      simp [perHostDeny, hp, hpz, hple]
    simp [canProceed, Nat.not_le.mpr h1, hd]
  · have hrow := isAllowedCircuit_denied_row cb row now h3
    simp [canProceed, Nat.not_le.mpr h1, h2, h3, hrow]
  · simp [canProceed, Nat.not_le.mpr h1, h2, h3, h4]
  · simp [canProceed, Nat.not_le.mpr h1, h2, h3, h4]

/-- C5 witness: with maxConcurrency 2 and two requests already active, the
first clause denies with reason concurrency and no state is touched. -/
theorem canProceed_denial_order_w :
    canProceed bpT cbCfgT rlCfgT 2 (fun _ => none) emptyCircuitRow none none 0 "example.com"
      = ({ allowed := false, reason := some .concurrency, retryAfter := none },
         emptyCircuitRow, none, none) :=
  (canProceed_denial_order bpT cbCfgT rlCfgT 2 (fun _ => none)
    emptyCircuitRow none none 0 "example.com").1 (by decide)

/-- Cancelling an id in neither the priority queue nor the scheduled set
reports false and does not touch the durable store. -/
theorem qmCancel_of_not_mem (st : SystemState) (id : String)
    (h : ¬(id ∈ st.queue ∨ id ∈ st.scheduled)) :
    (qmCancel st id).1 = false ∧ (qmCancel st id).2.durable = st.durable := by
  constructor
  · simp [qmCancel, redisCancel, h]
  · simp [qmCancel, redisCancel, h]

/-- C7: an id in the priority queue or the scheduled set (and regardless of
the processing set) is removed from both sets by cancel, its durable row is
transitioned to cancelled and true is returned; an immediately following
second cancel returns false and leaves the durable store unchanged; an id in
neither set — in particular one present only in the processing set — is not
cancelled and its durable store is untouched. -/
theorem qmCancel_behaviour :
    (∀ st id r, (id ∈ st.queue ∨ id ∈ st.scheduled) → st.durable id = some r →
      (qmCancel st id).1 = true
      ∧ id ∉ (qmCancel st id).2.queue
      ∧ id ∉ (qmCancel st id).2.scheduled
      ∧ (qmCancel st id).2.durable id = some { r with status := .cancelled }
      ∧ (qmCancel (qmCancel st id).2 id).1 = false
      ∧ (qmCancel (qmCancel st id).2 id).2.durable = (qmCancel st id).2.durable)
    ∧ (∀ st id, id ∉ st.queue → id ∉ st.scheduled →
      (qmCancel st id).1 = false ∧ (qmCancel st id).2.durable = st.durable) := by
  constructor
  · intro st id r hmem hrow
    have hst1 : (qmCancel st id).2
        = pgUpdateStatus
            { st with queue := st.queue.erase id, scheduled := st.scheduled.erase id }
            id .cancelled := by
      simp [qmCancel, redisCancel, hmem]
    have hq : id ∉ (qmCancel st id).2.queue := by
      rw [hst1]
      simp [pgUpdateStatus, Finset.not_mem_erase]
    have hs : id ∉ (qmCancel st id).2.scheduled := by
      rw [hst1]
      simp [pgUpdateStatus, Finset.not_mem_erase]
    have hmem2 : ¬(id ∈ (qmCancel st id).2.queue ∨ id ∈ (qmCancel st id).2.scheduled) := by
      rintro (h | h)
      · exact hq h
      · exact hs h
    refine ⟨?_, hq, hs, ?_, ?_, ?_⟩
    · simp [qmCancel, redisCancel, hmem]
    · rw [hst1]
      simp [pgUpdateStatus, hrow]
    · exact (qmCancel_of_not_mem _ id hmem2).1
    · exact (qmCancel_of_not_mem _ id hmem2).2
  · intro st id hq hs
    have hmem : ¬(id ∈ st.queue ∨ id ∈ st.scheduled) := by
      rintro (h | h)
      · exact hq h
      · exact hs h
    exact qmCancel_of_not_mem st id hmem

/-- C7 witness: with request a queued and request b only in the processing
set, cancelling a succeeds and flips its durable row, and cancelling b
reports false. -/
theorem qmCancel_behaviour_w :
    (qmCancel sysCancelT "a").1 = true
    ∧ (qmCancel sysCancelT "a").2.durable "a"
        = some { rowPendT with status := .cancelled }
    ∧ (qmCancel sysCancelT "b").1 = false :=
  ⟨(qmCancel_behaviour.1 sysCancelT "a" rowPendT (by decide) (by decide)).1,
   (qmCancel_behaviour.1 sysCancelT "a" rowPendT (by decide) (by decide)).2.2.2.1,
   (qmCancel_behaviour.2 sysCancelT "b" (by decide) (by decide)).1⟩

/-- C8: retryDeadRequest on an existing request whose durable status is not
dead leaves the durable store entirely unchanged (the update is guarded by
status dead), yet still re-inserts the id into the Index Store priority queue
and publishes a new-request notification, so a completed or pending request
can be re-dispatched. -/
theorem qmRetryDeadRequest_nondead (st : SystemState) (id : String) (r : StoreRow)
    (hrow : st.durable id = some r) (hnd : r.status ≠ .dead) :
    (qmRetryDeadRequest st id).durable = st.durable
    ∧ id ∈ (qmRetryDeadRequest st id).queue
    ∧ (qmRetryDeadRequest st id).published = st.published ++ [id] := by
  have hpg : (pgRetryDeadRequest st id).durable = st.durable := by
    funext x
    by_cases hx : x = id
    · subst hx
      simp [pgRetryDeadRequest, hrow, hnd]
    · simp [pgRetryDeadRequest, hx]
  have hpg1 : pgRetryDeadRequest st id
      = { st with durable := (pgRetryDeadRequest st id).durable } := by
    simp [pgRetryDeadRequest]
  have hid : (pgRetryDeadRequest st id).durable id = some r := by
    rw [hpg, hrow]
  refine ⟨?_, ?_, ?_⟩
  · simp [qmRetryDeadRequest, hid, redisEnqueue, hpg]
  · simp [qmRetryDeadRequest, hid, redisEnqueue]
  · rw [qmRetryDeadRequest, hid]
    simp only [redisEnqueue]
    rw [hpg1]

/-- C8 witness: request c is completed; retryDeadRequest leaves its durable
row unchanged yet enqueues and publishes it again. -/
theorem qmRetryDeadRequest_nondead_w :
    (qmRetryDeadRequest sysRetryT "c").durable = sysRetryT.durable
    ∧ "c" ∈ (qmRetryDeadRequest sysRetryT "c").queue
    ∧ (qmRetryDeadRequest sysRetryT "c").published = sysRetryT.published ++ ["c"] :=
  qmRetryDeadRequest_nondead sysRetryT "c" rowCompletedT (by decide) (by decide)

/-- A successful schema parse passes the caller-supplied id through
untouched, and therefore only ever succeeds on a UUID-formatted supplied id. -/
theorem parseQueueRequest_ok_id (inp : QueueRequestInput) (v : ParsedRequest)
    (hp : parseQueueRequest inp = .ok v) :
    v.id = inp.id ∧ (∀ s, inp.id = some s → isUuid s = true) := by
  simp only [parseQueueRequest] at hp
  split_ifs at hp with h1 h2 h3 h4 h5 h6
  have hv : v.id = inp.id := by
    rw [← Except.ok.inj hp]
  refine ⟨hv, fun s hs => ?_⟩
  rw [hs] at h1
  simpa using h1

/-- C9: createRequest (and hence enqueue) rejects every input whose
caller-supplied id is not a UUID-formatted string with a validation error;
when validation succeeds, the result carries the caller's id whenever one was
supplied (necessarily UUID-formatted) and the generated id exactly when the
input omits the id field. -/
theorem createRequest_id_validation :
    (∀ (g : String) (now : ℚ) (inp : QueueRequestInput) (s : String),
      inp.id = some s → isUuid s = false →
      createRequest g now inp = .error "Invalid uuid")
    ∧ (∀ (g : String) (now : ℚ) (inp : QueueRequestInput) (r : NormalizedRequest),
      createRequest g now inp = .ok r →
      (inp.id = none → r.id = g)
      ∧ (∀ s, inp.id = some s → r.id = s ∧ isUuid s = true)) := by
  constructor
  · intro g now inp s hs hbad
    simp [createRequest, parseQueueRequest, hs, hbad]
  · intro g now inp r hok
    unfold createRequest at hok
    cases hp : parseQueueRequest inp with
    | error e =>
      rw [hp] at hok
      exact absurd hok (by simp)
    | ok v =>
      rw [hp] at hok
      have hids := parseQueueRequest_ok_id inp v hp
      have hr : r = { id := v.id.getD g, url := v.url, method := v.method,
                      priority := v.priority, maxRetries := v.maxRetries,
                      timeout := v.timeout, scheduledFor := v.scheduledFor,
                      createdAt := now } :=
        (Except.ok.inj hok).symm
      constructor
      · intro hnone
        rw [hr]
        simp [hids.1, hnone]
      · intro s hs
        refine ⟨?_, hids.2 s hs⟩
        rw [hr]
        simp [hids.1, hs]

/-- C9 witness: the malformed caller id is rejected, and the omitted id is
filled with the generated UUID. -/
theorem createRequest_id_validation_w :
    createRequest genIdT 0 inpBadIdT = .error "Invalid uuid"
    ∧ outNoIdT.id = genIdT :=
  ⟨createRequest_id_validation.1 genIdT 0 inpBadIdT "not-a-uuid" rfl (by decide),
   (createRequest_id_validation.2 genIdT 0 inpNoIdT outNoIdT (by rfl)).1 rfl⟩

/-- C10: getStats returns successRate = completed / (completed + failed +
dead) whenever that denominator is positive, and 0 (rather than a division
by zero) when no request has reached completed, failed or dead. -/
theorem getStats_successRate (rows : List RequestStatus) :
    (0 < rows.count .completed + rows.count .failed + rows.count .dead →
      (getStats rows).successRate
        = (rows.count .completed : ℚ)
          / ((rows.count .completed + rows.count .failed + rows.count .dead : Nat) : ℚ))
    ∧ (rows.count .completed + rows.count .failed + rows.count .dead = 0 →
      (getStats rows).successRate = 0) := by
  constructor
  · intro h
    simp [getStats, h]
  · intro h
    simp [getStats, h]

/-- C10 witness: a store with one completed and one dead request. -/
theorem getStats_successRate_w :
    (getStats rowsT).successRate
      = (rowsT.count .completed : ℚ)
        / ((rowsT.count .completed + rowsT.count .failed + rowsT.count .dead : Nat) : ℚ) :=
  (getStats_successRate rowsT).1 (by decide)

end HQM
